import Mathlib

/-!
Shallow embedding of the Wio Terminal PC-monitor firmware
(`wio-terminal/src/main.cpp`, primary variant): the line assembler,
the CSV telemetry parser, the diff-based render engine with its draw
cache, the freshness status, the LCD sleep/wake power management and
the BLE telemetry echo.

Modelling conventions:
- device floats are modelled as rationals (`ℚ`); every value exercised
  by a theorem below is exactly representable, so no rounding gap between
  the model and 32-bit floats is visible in any statement;
- the `millis()` clock is a `Nat` parameter threaded through each step
  (the firmware is single-threaded, so one instant per step is faithful);
- `TFT_eSPI` drawing primitives are logged as an explicit `DrawOp` list;
  pure state setters (`setCursor`, `setTextColor`, `setTextSize`,
  `setTextDatum`, `setTextPadding`) paint nothing and are not logged.
-/

namespace WioMon

abbrev Str := List Char

-- RGB565 colour constants from TFT_eSPI.
def TFT_BLACK : Nat := 0x0000
def TFT_DARKGREY : Nat := 0x7BEF
def TFT_GREEN : Nat := 0x07E0
def TFT_CYAN : Nat := 0x07FF
def TFT_ORANGE : Nat := 0xFDA0
def TFT_RED : Nat := 0xF800

-- UI and layout constants (`main.cpp` lines 46-48, 66, 69-70, 177-181).
def SCREEN_W : Int := 320
def SCREEN_H : Int := 240
def PADDING : Int := 8
def LABEL_W : Int := 70
def BAR_H : Int := 22
def LCD_SLEEP_TIMEOUT_MS : Nat := 60000
def Y_CPU : Int := PADDING + 28
def Y_RAM : Int := Y_CPU + 32
def Y_GPU : Int := Y_RAM + 32
def Y_GPUTEMP : Int := Y_GPU + 32
def Y_TEMP : Int := Y_GPUTEMP + 32

/-- Bar start x from `barGeom`: `PADDING + LABEL_W + 6`. -/
def barX : Int := PADDING + LABEL_W + 6

/-- Bar track width from `barGeom`: `SCREEN_W - barX - PADDING` (228 px). -/
def trackW : Int := SCREEN_W - barX - PADDING

/-- C `isspace` character class, used by Arduino `String::trim`. -/
def isSpaceC (c : Char) : Bool :=
  c = ' ' || c = '\t' || c = '\n' || c = '\x0b' || c = '\x0c' || c = '\r'

/-- ASCII decimal digit test. -/
def isDigitC (c : Char) : Bool := 48 ≤ c.toNat && c.toNat ≤ 57

/-- The ASCII digit character for a digit value. -/
def digitChar (d : Nat) : Char := Char.ofNat (48 + d)

/-- Value of a string of ASCII digits, most significant first. -/
def digitsVal (l : Str) : Nat := l.foldl (fun a c => a * 10 + (c.toNat - 48)) 0

/-- Value of a list of digit values, most significant first. -/
def natOfDigits (ds : List Nat) : Nat := ds.foldl (fun a d => a * 10 + d) 0

/-- Decimal characters of a natural number. -/
def natToChars (n : Nat) : Str := (Nat.repr n).data

/-- Decimal characters of an integer. -/
def intToChars (i : Int) : Str :=
  if i < 0 then '-' :: natToChars i.natAbs else natToChars i.natAbs

/-- C `(int)` cast on a real value: truncation toward zero. -/
def truncQ (q : ℚ) : Int := if 0 ≤ q then ⌊q⌋ else ⌈q⌉

/-- Rounding used by `printf`-style `"%.0f"`: nearest, ties to even. -/
def roundHalfEven (q : ℚ) : Int :=
  if q - ⌊q⌋ < 1 / 2 then ⌊q⌋
  else if 1 / 2 < q - ⌊q⌋ then ⌊q⌋ + 1
  else if ⌊q⌋ % 2 = 0 then ⌊q⌋ else ⌊q⌋ + 1

/-- Text drawn by `snprintf(buf, _, "%.0f%%", value)` in `updateBarFill`. -/
def fmtPct (q : ℚ) : Str := intToChars (roundHalfEven q) ++ ['%']

/-- Text drawn by `snprintf(buf, _, "%.0fC", tempC)` in the temperature paths. -/
def fmtTempC (q : ℚ) : Str := intToChars (roundHalfEven q) ++ ['C']

/-- Arduino `String(float)`: the value printed with two decimal places. -/
def fmt2 (q : ℚ) : Str :=
  let n := roundHalfEven (q * 100)
  let a := n.natAbs
  let body := natToChars (a / 100) ++ '.' :: digitChar (a % 100 / 10) :: [digitChar (a % 10)]
  if n < 0 then '-' :: body else body

/-- Leading-sign split of C `strtod`: consume one optional `-` or `+`. -/
def splitSign : Str → Bool × Str
  | [] => (false, [])
  | c :: r => if c = '-' then (true, r) else if c = '+' then (false, r) else (false, c :: r)

/-- Fraction split of C `strtod`: after the integer digits, consume an
optional point followed by fraction digits. -/
def splitFrac : Str → Str × Str
  | [] => ([], [])
  | c :: r =>
    if c = '.' then (r.takeWhile isDigitC, r.dropWhile isDigitC) else ([], c :: r)

/-- Integer power of ten over `ℚ`, for the `strtod` exponent. -/
def pow10Z : Int → ℚ
  | .ofNat n => (10 : ℚ) ^ n
  | .negSucc n => 1 / (10 : ℚ) ^ (n + 1)

/-- Exponent part of C `strtod`: an optional `e`/`E`, sign and digits;
an `e` not followed by digits is not consumed. -/
def expVal : Str → Int
  | [] => 0
  | c :: r =>
    if c = 'e' || c = 'E' then
      let p := splitSign r
      let ds := p.2.takeWhile isDigitC
      if ds = [] then 0
      else if p.1 then -(digitsVal ds : Int) else (digitsVal ds : Int)
    else 0

/-- Model of Arduino `String::toFloat` (C `atof`/`strtod`), the firmware's
best-effort field parser, restricted to decimal forms: leading whitespace,
optional sign, integer digits, optional fraction, optional exponent; a
string with no digits at all converts to `0`.  The hexadecimal and
`inf`/`nan` forms of `strtod` are outside the modelled fragment and no
theorem below touches a string in those forms. -/
def toFloat (s : Str) : ℚ :=
  let s1 := s.dropWhile isSpaceC
  let p := splitSign s1
  let ip := p.2.takeWhile isDigitC
  let s3 := p.2.dropWhile isDigitC
  let f := splitFrac s3
  if ip = [] ∧ f.1 = [] then 0
  else
    let mant : ℚ := (digitsVal ip : ℚ) + (digitsVal f.1 : ℚ) / (10 : ℚ) ^ f.1.length
    let mag := mant * pow10Z (expVal f.2)
    if p.1 then -mag else mag

/-- Index of the first occurrence of a character, or `none`. -/
def findCh (ch : Char) : Str → Option Nat
  | [] => none
  | c :: r => if c = ch then some 0 else (findCh ch r).map (· + 1)

/-- Arduino `String::indexOf(ch, fromIndex)`: absolute index of the first
occurrence at or after `f`, or `-1`. -/
def indexOfFrom (l : Str) (ch : Char) (f : Nat) : Int :=
  match findCh ch (l.drop f) with
  | some i => ((f + i : Nat) : Int)
  | none => -1

/-- Arduino `String::substring(a, b)`: characters in `[a, b)`. -/
def substr (l : Str) (a b : Nat) : Str := (l.take b).drop a

/-- Arduino `String::trim`: strip leading and trailing `isspace` characters. -/
def trimS (s : Str) : Str :=
  ((s.dropWhile isSpaceC).reverse.dropWhile isSpaceC).reverse

/-- The `Metrics` struct: one telemetry snapshot, five fields. -/
structure Metrics where
  cpu : ℚ
  tempC : ℚ
  ram : ℚ
  gpu : ℚ
  gpuTempC : ℚ
deriving DecidableEq

/-- Field defaults of the `Metrics` struct (`-1` marks `N/A`). -/
def defaultMetrics : Metrics := ⟨0, -1, 0, -1, 0⟩

/-- `parseLine`: split the line at the first four commas and convert the
five pieces with `toFloat`; fail if fewer than four commas are found. -/
def parseLine (line : Str) : Option Metrics :=
  let idx1 := indexOfFrom line ',' 0
  let idx2 := indexOfFrom line ',' (idx1 + 1).toNat
  let idx3 := indexOfFrom line ',' (idx2 + 1).toNat
  let idx4 := indexOfFrom line ',' (idx3 + 1).toNat
  if idx1 < 0 ∨ idx2 < 0 ∨ idx3 < 0 ∨ idx4 < 0 then none
  else some
    { cpu := toFloat (substr line 0 idx1.toNat)
      tempC := toFloat (substr line (idx1 + 1).toNat idx2.toNat)
      ram := toFloat (substr line (idx2 + 1).toNat idx3.toNat)
      gpu := toFloat (substr line (idx3 + 1).toNat idx4.toNat)
      gpuTempC := toFloat (line.drop (idx4 + 1).toNat) }

/-- One logged drawing primitive of the display driver. -/
inductive DrawOp where
  | fillRect (x y w h : Int) (color : Nat)
  | drawString (s : Str) (x y : Int)
  | fillCircle (x y r : Int) (color : Nat)
  | fillScreen (color : Nat)
  | drawLine (x0 y0 x1 y1 : Int) (color : Nat)
  | printText (s : Str)
deriving DecidableEq

/-- The draw cache: the three last-drawn bar widths (`lastCpuW`,
`lastRamW`, `lastGpuW`, unset sentinel `-1`) and the `LastDrawn` struct
(unset sentinel `-1000`; its `cpu` and `ram` fields exist in the source
but are never read or written outside the reset). -/
structure RenderCache where
  lastCpuW : Int
  lastRamW : Int
  lastGpuW : Int
  ldCpu : Int
  ldRam : Int
  ldGpu : Int
  ldTempC : Int
  ldGpuTempC : Int
deriving DecidableEq

/-- `resetDrawCaches` and also the initial values of the cache globals. -/
def resetCache : RenderCache :=
  { lastCpuW := -1, lastRamW := -1, lastGpuW := -1
    ldCpu := -1000, ldRam := -1000, ldGpu := -1000
    ldTempC := -1000, ldGpuTempC := -1000 }

/-- Clamp of `updateBarFill`: `if (v < 0) v = 0; if (v > 100) v = 100;`. -/
def clampPct (v : ℚ) : ℚ := if v < 0 then 0 else if 100 < v then 100 else v

/-- Bar width of `updateBarFill`: `(int)(bw * (v / 100.0f))` after the
clamp; the operand is nonnegative, so the cast truncation is a floor. -/
def newBarW (value : ℚ) : Int := truncQ ((trackW : ℚ) * (clampPct value / 100))

def naStr : Str := ("N/A").data

/-- `updateBarFill(y, value, color, lastWRef)`: returns the new cached
width and the painted operations.  A negative cached width is first
normalised to `0` (through the reference, so it sticks even on the early
return); an unchanged width paints nothing; otherwise only the grown or
vacated segment is painted and the percentage text is redrawn. -/
def updateBarFill (y : Int) (value : ℚ) (color : Nat) (lastW0 : Int) :
    Int × List DrawOp :=
  let newW := newBarW value
  let lastW := if lastW0 < 0 then 0 else lastW0
  if newW = lastW then (lastW, [])
  else
    let seg :=
      if lastW < newW then DrawOp.fillRect (barX + lastW) y (newW - lastW) BAR_H color
      else DrawOp.fillRect (barX + newW) y (lastW - newW) BAR_H TFT_DARKGREY
    (newW, [seg, DrawOp.drawString (fmtPct value) (SCREEN_W - PADDING) (y + BAR_H / 2)])

/-- `drawTemp(y, tempC)`: `N/A` for a negative value, otherwise the
rounded numeric text. -/
def drawTemp (y : Int) (tempC : ℚ) : List DrawOp :=
  if tempC < 0 then [DrawOp.drawString naStr (SCREEN_W - PADDING) y]
  else [DrawOp.drawString (fmtTempC tempC) (SCREEN_W - PADDING) y]

/-- The inline GPU-temperature drawing block of `updateBarsAndTemps`
(same shape as `drawTemp`, fixed to the `Y_GPUTEMP` row). -/
def gpuTempDraw (q : ℚ) : List DrawOp :=
  if q < 0 then [DrawOp.drawString naStr (SCREEN_W - PADDING) Y_GPUTEMP]
  else [DrawOp.drawString (fmtTempC q) (SCREEN_W - PADDING) Y_GPUTEMP]

/-- Temperature change detector: `(m.tempC < 0) ? -1 : (int)(m.tempC * 10)`. -/
def tempTenths (q : ℚ) : Int := if q < 0 then -1 else truncQ (q * 10)

/-- GPU change detector: `(m.gpu < 0) ? -1 : (int)(m.gpu + 0.5f)`. -/
def gpuRounded (q : ℚ) : Int := if q < 0 then -1 else truncQ (q + 1 / 2)

/-- `updateBarsAndTemps(m)`: the delta render.  CPU bar, then CPU
temperature (gated on the tenths-of-degree integer), then RAM bar, then
the GPU bar (gated on the rounded integer, with a negative load clamped
to `0` for the bar), then GPU temperature.  Returns the updated cache
and the painted operations in program order. -/
def updateBarsAndTemps (m : Metrics) (c : RenderCache) :
    RenderCache × List DrawOp :=
  let cpuR := updateBarFill Y_CPU m.cpu TFT_GREEN c.lastCpuW
  let tT := tempTenths m.tempC
  let tempR : Int × List DrawOp :=
    if tT ≠ c.ldTempC then (tT, drawTemp Y_TEMP m.tempC) else (c.ldTempC, [])
  let ramR := updateBarFill Y_RAM m.ram TFT_CYAN c.lastRamW
  let gI := gpuRounded m.gpu
  let gpuR : Int × Int × List DrawOp :=
    if gI ≠ c.ldGpu then
      let r := updateBarFill Y_GPU (if m.gpu < 0 then 0 else m.gpu) TFT_ORANGE c.lastGpuW
      (r.1, gI, r.2)
    else (c.lastGpuW, c.ldGpu, [])
  let gtT := tempTenths m.gpuTempC
  let gtR : Int × List DrawOp :=
    if gtT ≠ c.ldGpuTempC then (gtT, gpuTempDraw m.gpuTempC) else (c.ldGpuTempC, [])
  ({ lastCpuW := cpuR.1, lastRamW := ramR.1, lastGpuW := gpuR.1
     ldCpu := c.ldCpu, ldRam := c.ldRam, ldGpu := gpuR.2.1
     ldTempC := tempR.1, ldGpuTempC := gtR.1 },
   cpuR.2 ++ tempR.2 ++ ramR.2 ++ gpuR.2.2 ++ gtR.2)

/-- The freshness predicate of `drawStatus`:
`(millis() - lastRxMillis) < threshold` (2500 ms in this build). -/
def isFreshT (now lastRx threshold : Nat) : Bool := now - lastRx < threshold

def spaceStr : Str := (" ").data
def waitingStr : Str := ("Waiting for data...").data

/-- This build has the rpcBLE stack, so `BT_AVAILABLE` is `true`. -/
def BT_AVAILABLE : Bool := true

/-- `drawStatus()`: clear the status band, paint the freshness dot
(green when fresh, red when stale), print the status text (a space once
data has arrived, the waiting message before), and the Bluetooth
availability marker. -/
def drawStatus (now lastRx : Nat) (receivedOnce : Bool) : List DrawOp :=
  let y := SCREEN_H - 28
  let fresh := isFreshT now lastRx 2500
  [DrawOp.fillRect PADDING (y - 4) (SCREEN_W - 2 * PADDING) 28 TFT_BLACK,
   DrawOp.fillCircle (PADDING + 6) (y + 6) 5 (if fresh then TFT_GREEN else TFT_RED),
   DrawOp.printText (if receivedOnce then spaceStr else waitingStr),
   DrawOp.printText (if BT_AVAILABLE then [] else ('x' :: []))]

def titleStr : Str := ("Wio PC Monitor").data
def cpuLbl : Str := ("CPU:").data
def ramLbl : Str := ("RAM:").data
def gpuLbl : Str := ("GPU:").data
def gtempLbl : Str := ("G-TEMP:").data
def tempLbl : Str := ("TEMP:").data

/-- `drawStaticLayoutOnce()`: clear the screen, draw the header, the five
labels and the three bar slots. -/
def staticLayoutOps : List DrawOp :=
  [DrawOp.fillScreen TFT_BLACK,
   DrawOp.printText titleStr,
   DrawOp.drawLine PADDING (PADDING + 20) (SCREEN_W - PADDING) (PADDING + 20) TFT_DARKGREY,
   DrawOp.printText cpuLbl, DrawOp.printText ramLbl, DrawOp.printText gpuLbl,
   DrawOp.printText gtempLbl, DrawOp.printText tempLbl,
   DrawOp.fillRect barX Y_CPU trackW BAR_H TFT_DARKGREY,
   DrawOp.fillRect barX Y_RAM trackW BAR_H TFT_DARKGREY,
   DrawOp.fillRect barX Y_GPU trackW BAR_H TFT_DARKGREY]

/-- The mutable firmware globals touched by the ingestion/render path. -/
structure Device where
  current : Metrics
  lineBuf : Str
  lastLineShown : Str
  receivedOnce : Bool
  lastRxMillis : Nat
  isLcdOn : Bool
  cache : RenderCache
deriving DecidableEq

/-- Global initial state at boot. -/
def initialDevice : Device :=
  { current := defaultMetrics, lineBuf := [], lastLineShown := []
    receivedOnce := false, lastRxMillis := 0, isLcdOn := true
    cache := resetCache }

/-- `lcdSleep()`: when the LCD is on, blank the screen and turn the
backlight off. -/
def lcdSleep (d : Device) : Device × List DrawOp :=
  if d.isLcdOn then ({ d with isLcdOn := false }, [DrawOp.fillScreen TFT_BLACK])
  else (d, [])

/-- `lcdWake()`: when the LCD is off, turn the backlight on, redraw the
static layout, reset the draw caches, re-render the current snapshot in
full and redraw the status line. -/
def lcdWake (d : Device) (now : Nat) : Device × List DrawOp :=
  if d.isLcdOn then (d, [])
  else
    let r := updateBarsAndTemps d.current resetCache
    ({ d with cache := r.1, isLcdOn := true },
     staticLayoutOps ++ r.2 ++ drawStatus now d.lastRxMillis d.receivedOnce)

/-- The per-byte line assembly shared by both transports
(`loop`, the `else if (c != '\r')` arm and the `'\n'` arm): a newline
emits the trimmed buffer and clears it; carriage returns are dropped;
other bytes append while the buffer is shorter than 128, and otherwise
reset the buffer to empty. -/
def feedChar (buf : Str) (c : Char) : Str × Option Str :=
  if c = '\n' then ([], some (trimS buf))
  else if c = '\r' then (buf, none)
  else if buf.length < 128 then (buf ++ [c], none)
  else ([], none)

/-- The serialization pushed to the BLE notify characteristic
(`bluetoothData` in `loop`). -/
def bleSerialize (m : Metrics) : Str :=
  ("CPU:").data ++ fmt2 m.cpu ++ (",TEMP:").data ++ fmt2 m.tempC ++
  (",RAM:").data ++ fmt2 m.ram ++ (",GPU:").data ++ fmt2 m.gpu ++
  (",G-TEMP:").data ++ fmt2 m.gpuTempC

/-- The `'\n'` arm of the input loops: parse the trimmed line; on success
overwrite the snapshot, record receipt, render the delta, redraw the
status line and wake the LCD; only the serial branch then notifies the
BLE characteristic (`fromSerial` selects which textual copy of the arm
ran).  On failure nothing but the line buffer changes.  Returns the new
state, the painted operations and the notified payloads. -/
def handleParsed (d : Device) (line : Str) (now : Nat) (fromSerial : Bool) :
    Device × List DrawOp × List Str :=
  match parseLine line with
  | none => (d, [], [])
  | some m =>
    let d1 : Device :=
      { d with current := m, receivedOnce := true, lastRxMillis := now
               lastLineShown := line }
    let r := updateBarsAndTemps m d1.cache
    let statusOps := drawStatus now d1.lastRxMillis d1.receivedOnce
    let w := lcdWake { d1 with cache := r.1 } now
    (w.1, r.2 ++ statusOps ++ w.2,
     if fromSerial then [bleSerialize m] else [])

/-- One byte of either transport's input loop. -/
def processChar (d : Device) (c : Char) (now : Nat) (fromSerial : Bool) :
    Device × List DrawOp × List Str :=
  let f := feedChar d.lineBuf c
  match f.2 with
  | some line => handleParsed { d with lineBuf := f.1 } line now fromSerial
  | none => ({ d with lineBuf := f.1 }, [], [])

/-- Fold step for a byte run: thread the device, concatenate outputs. -/
def procStep (now : Nat) (fromSerial : Bool)
    (acc : Device × List DrawOp × List Str) (c : Char) :
    Device × List DrawOp × List Str :=
  let r := processChar acc.1 c now fromSerial
  (r.1, acc.2.1 ++ r.2.1, acc.2.2 ++ r.2.2)

/-- A run of bytes through one transport's input loop, concatenating the
painted operations and notified payloads. -/
def processChars (d : Device) (cs : Str) (now : Nat) (fromSerial : Bool) :
    Device × List DrawOp × List Str :=
  cs.foldl (procStep now fromSerial) (d, [], [])

/-- The rpcBLE receive handler in `loop`: append a newline when the
packet lacks one, then feed the bytes through the shared assembler with
the BLE (non-notifying) `'\n'` arm. -/
def processBlePacket (d : Device) (s : Str) (now : Nat) :
    Device × List DrawOp × List Str :=
  let cs := if s.getLast? = some '\n' then s else s ++ ['\n']
  processChars d cs now false

/-- The LCD sleep check at the bottom of `loop`:
`if (isLcdOn && (now - lastRxMillis) > LCD_SLEEP_TIMEOUT_MS) lcdSleep();`. -/
def sleepCheck (d : Device) (now : Nat) : Device × List DrawOp :=
  if d.isLcdOn ∧ now - d.lastRxMillis > LCD_SLEEP_TIMEOUT_MS then lcdSleep d
  else (d, [])

/-- Fold step of the standalone line assembler. -/
def asmStep (acc : Str × List Str) (c : Char) : Str × List Str :=
  let r := feedChar acc.1 c
  (r.1, acc.2 ++ r.2.toList)

/-- The standalone line assembler over a byte sequence: final buffer and
the emitted (trimmed) lines in order. -/
def runAssembler (input : Str) : Str × List Str :=
  input.foldl asmStep ([], [])

/-- A well-formed decimal numeral, spelled from digit values: optional
minus sign, integer digits, optional point and fraction digits. -/
def renderNumeral (neg : Bool) (ip fp : List Nat) : Str :=
  (if neg then ['-'] else []) ++ ip.map digitChar ++
    (if fp = [] then [] else '.' :: fp.map digitChar)

/-- The exact rational value such a numeral denotes. -/
def numeralVal (neg : Bool) (ip fp : List Nat) : ℚ :=
  let mag : ℚ := (natOfDigits ip : ℚ) + (natOfDigits fp : ℚ) / (10 : ℚ) ^ fp.length
  if neg then -mag else mag

/-- A string that does not begin with anything `strtod` could consume as
part of a number (digit, sign, point, whitespace, or an `inf`/`nan`
letter). -/
def startsNonNumeric (s : Str) : Bool :=
  match s with
  | [] => true
  | c :: _ =>
    !(isDigitC c) && !(isSpaceC c) && c ≠ '-' && c ≠ '+' && c ≠ '.' &&
      c ≠ 'i' && c ≠ 'I' && c ≠ 'n' && c ≠ 'N'

/-- Pixels covered by the rectangle fills in an operation list (the grow
and shrink segments of the bars; text overlays are not rectangle fills). -/
def paintedPx (ops : List DrawOp) : Int :=
  (ops.map fun op =>
    match op with
    | DrawOp.fillRect _ _ w h _ => w * h
    | _ => 0).sum

/-- A sequence of delta repaints of the CPU bar row, threading the cached
width and concatenating the painted operations. -/
def runBarSeq (vals : List ℚ) (w0 : Int) : Int × List DrawOp :=
  vals.foldl
    (fun acc v =>
      let r := updateBarFill Y_CPU v TFT_GREEN acc.1
      (r.1, acc.2 ++ r.2))
    (w0, [])

/-! ### Helper lemmas: characters and digit strings -/

theorem digitChar_toNat {d : Nat} (h : d < 10) : (digitChar d).toNat = 48 + d := by
  unfold digitChar
  interval_cases d <;> decide

theorem isDigitC_digitChar {d : Nat} (h : d < 10) : isDigitC (digitChar d) = true := by
  unfold digitChar isDigitC
  interval_cases d <;> decide

theorem isSpaceC_digitChar {d : Nat} (h : d < 10) : isSpaceC (digitChar d) = false := by
  unfold digitChar isSpaceC
  interval_cases d <;> decide

theorem digitChar_ne {d : Nat} (h : d < 10) :
    digitChar d ≠ ',' ∧ digitChar d ≠ '-' ∧ digitChar d ≠ '+' ∧ digitChar d ≠ '.' ∧
      digitChar d ≠ '\n' ∧ digitChar d ≠ '\r' := by
  unfold digitChar
  interval_cases d <;> exact ⟨by decide, by decide, by decide, by decide, by decide, by decide⟩

theorem dropWhile_append_all {p : Char → Bool} {a : Str} (b : Str)
    (h : ∀ x ∈ a, p x) : (a ++ b).dropWhile p = b.dropWhile p := by
  induction a with
  | nil => rfl
  | cons x xs ih =>
    simp only [List.cons_append, List.dropWhile_cons, h x (by simp), if_true]
    exact ih fun y hy => h y (by simp [hy])

theorem dropWhile_cons_neg {p : Char → Bool} {c : Char} (r : Str)
    (h : p c = false) : (c :: r).dropWhile p = c :: r := by
  simp [List.dropWhile_cons, h]

theorem takeWhile_cons_neg {p : Char → Bool} {c : Char} (r : Str)
    (h : p c = false) : (c :: r).takeWhile p = [] := by
  simp [List.takeWhile_cons, h]

theorem mapDigit_all_digit {ds : List Nat} (h : ∀ d ∈ ds, d < 10) :
    ∀ x ∈ ds.map digitChar, isDigitC x = true := by
  intro x hx
  obtain ⟨d, hd, rfl⟩ := List.mem_map.mp hx
  exact isDigitC_digitChar (h d hd)

theorem digitsVal_map {ds : List Nat} (h : ∀ d ∈ ds, d < 10) :
    digitsVal (ds.map digitChar) = natOfDigits ds := by
  unfold digitsVal natOfDigits
  rw [List.foldl_map]
  have hgen : ∀ (l : List Nat) (a : Nat), (∀ x ∈ l, x < 10) →
      l.foldl (fun a c => a * 10 + ((digitChar c).toNat - 48)) a =
        l.foldl (fun a d => a * 10 + d) a := by
    intro l
    induction l with
    | nil => intro a _; rfl
    | cons y ys ihy =>
      intro a hl
      simp only [List.foldl_cons]
      rw [digitChar_toNat (hl y (by simp))]
      have he : 48 + y - 48 = y := by omega
      rw [he]
      exact ihy _ fun x hx => hl x (by simp [hx])
  exact hgen ds 0 h

/-! ### Helper lemmas: character search -/

theorem findCh_eq_none {ch : Char} {l : Str} (h : ch ∉ l) : findCh ch l = none := by
  induction l with
  | nil => rfl
  | cons c r ih =>
    have hc : ¬(c = ch) := fun e => h (by simp [e])
    simp [findCh, hc, ih (fun hm => h (by simp [hm]))]

theorem findCh_append {ch : Char} {a : Str} (b : Str) (h : ch ∉ a) :
    findCh ch (a ++ ch :: b) = some a.length := by
  induction a with
  | nil => simp [findCh]
  | cons c r ih =>
    have hc : ¬(c = ch) := fun e => h (by simp [e])
    simp [findCh, hc, ih (fun hm => h (by simp [hm]))]

theorem findCh_some {ch : Char} {l : Str} {i : Nat} (h : findCh ch l = some i) :
    i < l.length ∧ l.take i ++ ch :: l.drop (i + 1) = l ∧ ch ∉ l.take i := by
  induction l generalizing i with
  | nil => simp [findCh] at h
  | cons c r ih =>
    by_cases hc : c = ch
    · subst hc
      simp [findCh] at h
      subst h
      simp
    · simp [findCh, hc] at h
      obtain ⟨j, hj, rfl⟩ := h
      obtain ⟨h1, h2, h3⟩ := ih hj
      refine ⟨by simpa using h1, by simpa using h2, ?_⟩
      intro hm
      rcases List.mem_cons.mp (by simpa using hm) with he | hm'
      · exact hc he.symm
      · exact h3 hm'

theorem count_pos_findCh {ch : Char} {l : Str} (h : 0 < l.count ch) :
    ∃ i, findCh ch l = some i := by
  cases hf : findCh ch l with
  | some i => exact ⟨i, rfl⟩
  | none =>
    exfalso
    have : ch ∉ l := by
      intro hm
      induction l with
      | nil => simp at hm
      | cons c r ih =>
        by_cases hc : c = ch
        · simp [findCh, hc] at hf
        · simp [findCh, hc] at hf
          rcases List.mem_cons.mp hm with he | hm'
          · exact hc he.symm
          · exact ih (by simpa [List.count_cons, hc] using h) hf hm'
    rw [List.count_eq_zero_of_not_mem this] at h
    exact Nat.lt_irrefl 0 h

theorem findCh_count {ch : Char} {l : Str} {i : Nat} (h : findCh ch l = some i) :
    l.count ch = (l.drop (i + 1)).count ch + 1 := by
  obtain ⟨_, h2, h3⟩ := findCh_some h
  conv_lhs => rw [← h2]
  rw [List.count_append, List.count_cons]
  rw [List.count_eq_zero_of_not_mem h3]
  simp

/-! ### Helper lemmas: `toFloat` on well-formed numerals -/

theorem toFloat_body (ip fp : List Nat) (h1 : ip ≠ []) (h2 : ∀ d ∈ ip, d < 10)
    (h3 : ∀ d ∈ fp, d < 10) (sgn : Bool) (s : Str)
    (hdrop : s.dropWhile isSpaceC = s)
    (hsplit : splitSign s =
      (sgn, ip.map digitChar ++ (if fp = [] then [] else '.' :: fp.map digitChar))) :
    toFloat s = numeralVal sgn ip fp := by
  have hIdig : ∀ x ∈ ip.map digitChar, isDigitC x = true := mapDigit_all_digit h2
  have hInil : ip.map digitChar ≠ [] := by
    cases ip with
    | nil => exact absurd rfl h1
    | cons d ds => simp
  have hThead : (if fp = [] then ([] : Str) else '.' :: fp.map digitChar).takeWhile isDigitC
      = [] := by
    by_cases hfp : fp = []
    · simp [hfp]
    · rw [if_neg hfp]
      exact takeWhile_cons_neg _ (by decide)
  have hTdrop : (if fp = [] then ([] : Str) else '.' :: fp.map digitChar).dropWhile isDigitC
      = (if fp = [] then ([] : Str) else '.' :: fp.map digitChar) := by
    by_cases hfp : fp = []
    · simp [hfp]
    · rw [if_neg hfp, dropWhile_cons_neg _ (by decide)]
  have hsfrac : splitFrac (if fp = [] then ([] : Str) else '.' :: fp.map digitChar)
      = (fp.map digitChar, []) := by
    by_cases hfp : fp = []
    · simp [hfp, splitFrac]
    · rw [if_neg hfp]
      have hfdig : ∀ x ∈ fp.map digitChar, isDigitC x = true := mapDigit_all_digit h3
      have htake : (fp.map digitChar).takeWhile isDigitC = fp.map digitChar :=
        List.takeWhile_eq_self_iff.mpr hfdig
      have hdropf : (fp.map digitChar).dropWhile isDigitC = [] := by
        have hdw := @dropWhile_append_all isDigitC (fp.map digitChar) [] hfdig
        simpa using hdw
      simp [splitFrac, htake, hdropf]
  simp only [toFloat, hdrop, hsplit]
  rw [List.takeWhile_append_of_pos hIdig, hThead, List.append_nil]
  rw [dropWhile_append_all _ hIdig, hTdrop, hsfrac]
  simp only [if_neg (fun hh : _ ∧ _ => hInil hh.1)]
  rw [digitsVal_map h2, digitsVal_map h3, List.length_map]
  have hexp : pow10Z (expVal []) = 1 := by
    show pow10Z 0 = 1
    show (10 : ℚ) ^ (0 : Nat) = 1
    exact pow_zero 10
  rw [hexp, mul_one]
  simp [numeralVal]

theorem toFloat_renderNumeral (neg : Bool) (ip fp : List Nat) (h1 : ip ≠ [])
    (h2 : ∀ d ∈ ip, d < 10) (h3 : ∀ d ∈ fp, d < 10) :
    toFloat (renderNumeral neg ip fp) = numeralVal neg ip fp := by
  obtain ⟨d, ds, rfl⟩ : ∃ d ds, ip = d :: ds := by
    cases ip with
    | nil => exact absurd rfl h1
    | cons d ds => exact ⟨d, ds, rfl⟩
  have hd10 : d < 10 := h2 d (by simp)
  obtain ⟨-, hne2, hne3, -, -, -⟩ := digitChar_ne hd10
  cases neg with
  | true =>
    have hr : renderNumeral true (d :: ds) fp =
        '-' :: ((d :: ds).map digitChar ++
          (if fp = [] then [] else '.' :: fp.map digitChar)) := by
      simp [renderNumeral]
    rw [hr]
    exact toFloat_body (d :: ds) fp h1 h2 h3 true _
      (dropWhile_cons_neg _ (by decide)) (by simp [splitSign])
  | false =>
    have hr : renderNumeral false (d :: ds) fp =
        digitChar d :: (ds.map digitChar ++
          (if fp = [] then [] else '.' :: fp.map digitChar)) := by
      simp [renderNumeral]
    rw [hr]
    refine toFloat_body (d :: ds) fp h1 h2 h3 false _
      (dropWhile_cons_neg _ (isSpaceC_digitChar hd10)) ?_
    simp [splitSign, hne2, hne3]

/-- A string whose head is not numeric converts to zero. -/
theorem toFloat_nonNumeric {s : Str} (h : startsNonNumeric s = true) : toFloat s = 0 := by
  cases s with
  | nil => rfl
  | cons c r =>
    simp only [startsNonNumeric, Bool.and_eq_true, Bool.not_eq_true',
      decide_eq_true_eq] at h
    obtain ⟨⟨⟨⟨⟨⟨⟨⟨hdig, hsp⟩, hm⟩, hp⟩, hdot⟩, _⟩, _⟩, _⟩, _⟩ := h
    simp only [toFloat, dropWhile_cons_neg _ hsp]
    have hsgn : splitSign (c :: r) = (false, c :: r) := by
      simp [splitSign, hm, hp]
    rw [hsgn]
    simp only [takeWhile_cons_neg _ hdig, dropWhile_cons_neg _ hdig]
    have hfr : splitFrac (c :: r) = ([], c :: r) := by
      simp [splitFrac, hdot]
    rw [hfr]
    simp

/-! ### Helper lemmas: `indexOfFrom` and `parseLine` -/

theorem findCh_none_not_mem {ch : Char} {l : Str} (h : findCh ch l = none) : ch ∉ l := by
  intro hm
  obtain ⟨i, hi⟩ := count_pos_findCh (List.count_pos_iff.mpr hm)
  rw [h] at hi
  exact Option.noConfusion hi

theorem indexOfFrom_spec (l : Str) (ch : Char) (f : Nat) :
    (indexOfFrom l ch f = -1 ∧ (l.drop f).count ch = 0) ∨
    (∃ i : Nat, indexOfFrom l ch f = ((f + i : Nat) : Int) ∧
      (l.drop f).count ch = (l.drop (f + i + 1)).count ch + 1) := by
  cases hf : findCh ch (l.drop f) with
  | none =>
    left
    constructor
    · simp [indexOfFrom, hf]
    · exact List.count_eq_zero_of_not_mem (findCh_none_not_mem hf)
  | some i =>
    right
    refine ⟨i, by simp [indexOfFrom, hf], ?_⟩
    have h1 := findCh_count hf
    rw [List.drop_drop] at h1
    have he : f + (i + 1) = f + i + 1 := by omega
    rwa [he] at h1

theorem parseLine_isSome_iff (l : Str) : (parseLine l).isSome ↔ 4 ≤ l.count ',' := by
  have step : ∀ f : Nat,
      (indexOfFrom l ',' f = -1 ∧ (l.drop f).count ',' = 0) ∨
      (∃ i : Nat, indexOfFrom l ',' f = ((f + i : Nat) : Int) ∧
        (indexOfFrom l ',' f + 1).toNat = f + i + 1 ∧
        (l.drop f).count ',' = (l.drop (f + i + 1)).count ',' + 1) := by
    intro f
    rcases indexOfFrom_spec l ',' f with h | ⟨i, hi, hc⟩
    · exact Or.inl h
    · exact Or.inr ⟨i, hi, by rw [hi]; omega, hc⟩
  simp only [parseLine]
  rcases step 0 with ⟨h1, hz⟩ | ⟨i1, hi1, ht1, hc1⟩
  · rw [List.drop_zero] at hz
    rw [h1, if_pos (Or.inl (by norm_num))]
    simp
    omega
  · rw [List.drop_zero] at hc1
    rw [Nat.zero_add] at hi1 ht1 hc1
    rw [ht1, hi1]
    rcases step (i1 + 1) with ⟨h2, hz⟩ | ⟨i2, hi2, ht2, hc2⟩
    · rw [h2, if_pos (Or.inr (Or.inl (by norm_num)))]
      simp
      omega
    · rw [ht2, hi2]
      rcases step (i1 + 1 + i2 + 1) with ⟨h3, hz⟩ | ⟨i3, hi3, ht3, hc3⟩
      · rw [h3, if_pos (Or.inr (Or.inr (Or.inl (by norm_num))))]
        simp
        omega
      · rw [ht3, hi3]
        rcases step (i1 + 1 + i2 + 1 + i3 + 1) with ⟨h4, hz⟩ | ⟨i4, hi4, ht4, hc4⟩
        · rw [h4, if_pos (Or.inr (Or.inr (Or.inr (by norm_num))))]
          simp
          omega
        · rw [hi4]
          rw [if_neg (by omega)]
          simp
          omega

theorem parseLine_none_of_count {l : Str} (h : l.count ',' < 4) : parseLine l = none := by
  cases hp : parseLine l with
  | none => rfl
  | some m =>
    have : (parseLine l).isSome := by simp [hp]
    rw [parseLine_isSome_iff] at this
    omega

theorem indexOfFrom_concat (pre s rest : Str) (h : ',' ∉ s) :
    indexOfFrom (pre ++ (s ++ ',' :: rest)) ',' pre.length =
      ((pre.length + s.length : Nat) : Int) := by
  unfold indexOfFrom
  rw [List.drop_left, findCh_append rest h]

theorem substr_concat (pre s rest : Str) :
    substr (pre ++ (s ++ rest)) pre.length (pre.length + s.length) = s := by
  unfold substr
  rw [show pre ++ (s ++ rest) = (pre ++ s) ++ rest by simp]
  rw [show pre.length + s.length = (pre ++ s).length by simp]
  rw [List.take_left, List.drop_left]

theorem parseLine_split (s1 s2 s3 s4 s5 : Str) (h1 : ',' ∉ s1) (h2 : ',' ∉ s2)
    (h3 : ',' ∉ s3) (h4 : ',' ∉ s4) :
    parseLine (s1 ++ ',' :: (s2 ++ ',' :: (s3 ++ ',' :: (s4 ++ ',' :: s5)))) =
      some ⟨toFloat s1, toFloat s2, toFloat s3, toFloat s4, toFloat s5⟩ := by
  have tt : ∀ n : Nat, ((n : Int) + 1).toNat = n + 1 := fun n => by omega
  have hidx1 : indexOfFrom (s1 ++ ',' :: (s2 ++ ',' :: (s3 ++ ',' :: (s4 ++ ',' :: s5)))) ',' 0
      = ((s1.length : Nat) : Int) := by
    have h := indexOfFrom_concat [] s1 (s2 ++ ',' :: (s3 ++ ',' :: (s4 ++ ',' :: s5))) h1
    simpa using h
  have hidx2 : indexOfFrom (s1 ++ ',' :: (s2 ++ ',' :: (s3 ++ ',' :: (s4 ++ ',' :: s5)))) ','
      (s1.length + 1) = ((s1.length + 1 + s2.length : Nat) : Int) := by
    have h := indexOfFrom_concat (s1 ++ [',']) s2 (s3 ++ ',' :: (s4 ++ ',' :: s5)) h2
    rw [show (s1 ++ [',']) ++ (s2 ++ ',' :: (s3 ++ ',' :: (s4 ++ ',' :: s5)))
        = s1 ++ ',' :: (s2 ++ ',' :: (s3 ++ ',' :: (s4 ++ ',' :: s5))) from by simp] at h
    rw [show (s1 ++ [',']).length = s1.length + 1 from by simp] at h
    exact h
  have hidx3 : indexOfFrom (s1 ++ ',' :: (s2 ++ ',' :: (s3 ++ ',' :: (s4 ++ ',' :: s5)))) ','
      (s1.length + 1 + s2.length + 1)
      = ((s1.length + 1 + s2.length + 1 + s3.length : Nat) : Int) := by
    have h := indexOfFrom_concat (s1 ++ ',' :: (s2 ++ [','])) s3 (s4 ++ ',' :: s5) h3
    rw [show (s1 ++ ',' :: (s2 ++ [','])) ++ (s3 ++ ',' :: (s4 ++ ',' :: s5))
        = s1 ++ ',' :: (s2 ++ ',' :: (s3 ++ ',' :: (s4 ++ ',' :: s5))) from by simp] at h
    rw [show (s1 ++ ',' :: (s2 ++ [','])).length = s1.length + 1 + s2.length + 1 from by
      simp only [List.length_append, List.length_cons, List.length_nil]; omega] at h
    exact h
  have hidx4 : indexOfFrom (s1 ++ ',' :: (s2 ++ ',' :: (s3 ++ ',' :: (s4 ++ ',' :: s5)))) ','
      (s1.length + 1 + s2.length + 1 + s3.length + 1)
      = ((s1.length + 1 + s2.length + 1 + s3.length + 1 + s4.length : Nat) : Int) := by
    have h := indexOfFrom_concat (s1 ++ ',' :: (s2 ++ ',' :: (s3 ++ [',']))) s4 s5 h4
    rw [show (s1 ++ ',' :: (s2 ++ ',' :: (s3 ++ [',']))) ++ (s4 ++ ',' :: s5)
        = s1 ++ ',' :: (s2 ++ ',' :: (s3 ++ ',' :: (s4 ++ ',' :: s5))) from by simp] at h
    rw [show (s1 ++ ',' :: (s2 ++ ',' :: (s3 ++ [',']))).length
        = s1.length + 1 + s2.length + 1 + s3.length + 1 from by
      simp only [List.length_append, List.length_cons, List.length_nil]; omega] at h
    exact h
  have hsub1 : substr (s1 ++ ',' :: (s2 ++ ',' :: (s3 ++ ',' :: (s4 ++ ',' :: s5)))) 0
      s1.length = s1 := by
    have h := substr_concat [] s1 (',' :: (s2 ++ ',' :: (s3 ++ ',' :: (s4 ++ ',' :: s5))))
    simpa using h
  have hsub2 : substr (s1 ++ ',' :: (s2 ++ ',' :: (s3 ++ ',' :: (s4 ++ ',' :: s5))))
      (s1.length + 1) (s1.length + 1 + s2.length) = s2 := by
    have h := substr_concat (s1 ++ [',']) s2 (',' :: (s3 ++ ',' :: (s4 ++ ',' :: s5)))
    rw [show (s1 ++ [',']) ++ (s2 ++ ',' :: (s3 ++ ',' :: (s4 ++ ',' :: s5)))
        = s1 ++ ',' :: (s2 ++ ',' :: (s3 ++ ',' :: (s4 ++ ',' :: s5))) from by simp] at h
    rw [show (s1 ++ [',']).length = s1.length + 1 from by simp] at h
    exact h
  have hsub3 : substr (s1 ++ ',' :: (s2 ++ ',' :: (s3 ++ ',' :: (s4 ++ ',' :: s5))))
      (s1.length + 1 + s2.length + 1) (s1.length + 1 + s2.length + 1 + s3.length) = s3 := by
    have h := substr_concat (s1 ++ ',' :: (s2 ++ [','])) s3 (',' :: (s4 ++ ',' :: s5))
    rw [show (s1 ++ ',' :: (s2 ++ [','])) ++ (s3 ++ ',' :: (s4 ++ ',' :: s5))
        = s1 ++ ',' :: (s2 ++ ',' :: (s3 ++ ',' :: (s4 ++ ',' :: s5))) from by simp] at h
    rw [show (s1 ++ ',' :: (s2 ++ [','])).length = s1.length + 1 + s2.length + 1 from by
      simp only [List.length_append, List.length_cons, List.length_nil]; omega] at h
    exact h
  have hsub4 : substr (s1 ++ ',' :: (s2 ++ ',' :: (s3 ++ ',' :: (s4 ++ ',' :: s5))))
      (s1.length + 1 + s2.length + 1 + s3.length + 1)
      (s1.length + 1 + s2.length + 1 + s3.length + 1 + s4.length) = s4 := by
    have h := substr_concat (s1 ++ ',' :: (s2 ++ ',' :: (s3 ++ [',']))) s4 (',' :: s5)
    rw [show (s1 ++ ',' :: (s2 ++ ',' :: (s3 ++ [',']))) ++ (s4 ++ ',' :: s5)
        = s1 ++ ',' :: (s2 ++ ',' :: (s3 ++ ',' :: (s4 ++ ',' :: s5))) from by simp] at h
    rw [show (s1 ++ ',' :: (s2 ++ ',' :: (s3 ++ [',']))).length
        = s1.length + 1 + s2.length + 1 + s3.length + 1 from by
      simp only [List.length_append, List.length_cons, List.length_nil]; omega] at h
    exact h
  have hdrop5 : (s1 ++ ',' :: (s2 ++ ',' :: (s3 ++ ',' :: (s4 ++ ',' :: s5)))).drop
      (s1.length + 1 + s2.length + 1 + s3.length + 1 + s4.length + 1) = s5 := by
    have h := List.drop_left (s1 ++ ',' :: (s2 ++ ',' :: (s3 ++ ',' :: (s4 ++ [','])))) s5
    rw [show (s1 ++ ',' :: (s2 ++ ',' :: (s3 ++ ',' :: (s4 ++ [','])))) ++ s5
        = s1 ++ ',' :: (s2 ++ ',' :: (s3 ++ ',' :: (s4 ++ ',' :: s5))) from by simp] at h
    rw [show (s1 ++ ',' :: (s2 ++ ',' :: (s3 ++ ',' :: (s4 ++ [','])))).length
        = s1.length + 1 + s2.length + 1 + s3.length + 1 + s4.length + 1 from by
      simp only [List.length_append, List.length_cons, List.length_nil]; omega] at h
    exact h
  simp only [parseLine]
  rw [hidx1, tt s1.length, hidx2, tt (s1.length + 1 + s2.length), hidx3,
    tt (s1.length + 1 + s2.length + 1 + s3.length), hidx4]
  rw [if_neg (by omega)]
  rw [tt (s1.length + 1 + s2.length + 1 + s3.length + 1 + s4.length)]
  simp only [Int.toNat_natCast]
  rw [hsub1, hsub2, hsub3, hsub4, hdrop5]

/-! ### Helper lemmas: concrete field values -/

theorem natOfDigits_single (d : Nat) : natOfDigits [d] = d := by
  simp [natOfDigits]

theorem toFloat_single {d : Nat} (h : d < 10) : toFloat [digitChar d] = (d : ℚ) := by
  have hr := toFloat_renderNumeral false [d] [] (by simp)
    (by intro x hx; rw [List.mem_singleton.mp hx]; exact h) (by simp)
  rw [show renderNumeral false [d] [] = [digitChar d] from by simp [renderNumeral]] at hr
  rw [hr]
  simp [numeralVal, natOfDigits]

theorem trimS_no_space {l : Str} (h : ∀ c ∈ l, isSpaceC c = false) : trimS l = l := by
  have hdw : ∀ (m : Str), (∀ c ∈ m, isSpaceC c = false) → m.dropWhile isSpaceC = m := by
    intro m hm
    cases m with
    | nil => rfl
    | cons c r => exact dropWhile_cons_neg r (hm c (by simp))
  unfold trimS
  rw [hdw l h, hdw l.reverse fun c hc => h c (List.mem_reverse.mp hc), List.reverse_reverse]

/-! ### Helper lemmas: the line assembler -/

theorem asm_clean (cs : Str) : ∀ (buf : Str) (es : List Str),
    (∀ c ∈ cs, c ≠ '\n' ∧ c ≠ '\r') → buf.length + cs.length ≤ 128 →
    cs.foldl asmStep (buf, es) = (buf ++ cs, es) := by
  induction cs with
  | nil => intro buf es _ _; simp
  | cons c r ih =>
    intro buf es hok hlen
    obtain ⟨hn, hr⟩ := hok c (by simp)
    have hlt : buf.length < 128 := by
      simp only [List.length_cons] at hlen
      omega
    have hstep : asmStep (buf, es) c = (buf ++ [c], es) := by
      simp [asmStep, feedChar, hn, hr, hlt]
    rw [List.foldl_cons, hstep]
    rw [ih (buf ++ [c]) es (fun x hx => hok x (by simp [hx]))
      (by
        simp only [List.length_append, List.length_cons, List.length_nil]
        simp only [List.length_cons] at hlen
        omega)]
    simp

theorem asm_overflow {buf : Str} (es : List Str) {b : Char} (hn : b ≠ '\n')
    (hr : b ≠ '\r') (hlen : buf.length = 128) : asmStep (buf, es) b = ([], es) := by
  simp [asmStep, feedChar, hn, hr, hlen]

theorem asm_newline (buf : Str) (es : List Str) :
    asmStep (buf, es) '\n' = ([], es ++ [trimS buf]) := by
  simp [asmStep, feedChar]

/-- After an overflow reset, later bytes open a fresh accumulation: 130
junk bytes leave one junk byte in the buffer, which prefixes the next
emitted line; 129 junk bytes leave the buffer empty and the next line is
emitted intact. -/
theorem assembler_overflow {b : Char} (hn : b ≠ '\n') (hr : b ≠ '\r')
    (hs : isSpaceC b = false) :
    (runAssembler (List.replicate 130 b ++ ("1,2,3,4,5\n").data)).2
        = [b :: ("1,2,3,4,5").data] ∧
      (runAssembler (List.replicate 129 b ++ ("1,2,3,4,5\n").data)).2
        = [("1,2,3,4,5").data] := by
  have hdata : ∀ c ∈ ("1,2,3,4,5").data, c ≠ '\n' ∧ c ≠ '\r' := by decide
  have hnl : ("1,2,3,4,5\n").data = ("1,2,3,4,5").data ++ ['\n'] := by decide
  have hmem : ∀ n : Nat, ∀ c ∈ List.replicate n b, c ≠ '\n' ∧ c ≠ '\r' := by
    intro n c hc
    rw [List.eq_of_mem_replicate hc]
    exact ⟨hn, hr⟩
  have hfill : (List.replicate 128 b).foldl asmStep (([] : Str), ([] : List Str))
      = (List.replicate 128 b, []) := by
    have h := asm_clean (List.replicate 128 b) [] [] (hmem 128) (by simp)
    simpa using h
  constructor
  · rw [show (130 : Nat) = 128 + 1 + 1 from rfl]
    rw [show List.replicate (128 + 1 + 1) b
        = List.replicate 128 b ++ [b] ++ [b] from by
      rw [List.replicate_add, List.replicate_add]; rfl]
    unfold runAssembler
    rw [hnl]
    rw [show List.replicate 128 b ++ [b] ++ [b] ++ (("1,2,3,4,5").data ++ ['\n'])
        = List.replicate 128 b ++ ([b] ++ ([b] ++ (("1,2,3,4,5").data ++ ['\n'])))
      from by simp]
    rw [List.foldl_append, hfill]
    rw [List.foldl_append]
    rw [show ([b] : Str).foldl asmStep (List.replicate 128 b, ([] : List Str)) = ([], [])
      from by
        simp only [List.foldl_cons, List.foldl_nil]
        rw [asm_overflow [] hn hr (by simp)]]
    rw [List.foldl_append]
    rw [show ([b] : Str).foldl asmStep (([] : Str), ([] : List Str)) = ([b], []) from by
      have h := asm_clean [b] [] [] (by simpa using ⟨hn, hr⟩) (by simp)
      simpa using h]
    rw [List.foldl_append]
    rw [show (("1,2,3,4,5").data).foldl asmStep (([b] : Str), ([] : List Str))
        = (b :: ("1,2,3,4,5").data, []) from by
      have h := asm_clean (("1,2,3,4,5").data) [b] [] hdata (by simp)
      simpa using h]
    rw [show (['\n'] : Str).foldl asmStep ((b :: ("1,2,3,4,5").data : Str), ([] : List Str))
        = ([], [trimS (b :: ("1,2,3,4,5").data)]) from by
      simp only [List.foldl_cons, List.foldl_nil]
      rw [asm_newline]
      simp]
    rw [trimS_no_space]
    intro c hc
    rcases List.mem_cons.mp hc with rfl | hc2
    · exact hs
    · have hall : ∀ x ∈ ("1,2,3,4,5").data, isSpaceC x = false := by decide
      exact hall c hc2
  · rw [show (129 : Nat) = 128 + 1 from rfl]
    rw [show List.replicate (128 + 1) b = List.replicate 128 b ++ [b] from by
      rw [List.replicate_add]; rfl]
    unfold runAssembler
    rw [hnl]
    rw [show List.replicate 128 b ++ [b] ++ (("1,2,3,4,5").data ++ ['\n'])
        = List.replicate 128 b ++ ([b] ++ (("1,2,3,4,5").data ++ ['\n'])) from by simp]
    rw [List.foldl_append, hfill]
    rw [List.foldl_append]
    rw [show ([b] : Str).foldl asmStep (List.replicate 128 b, ([] : List Str)) = ([], [])
      from by
        simp only [List.foldl_cons, List.foldl_nil]
        rw [asm_overflow [] hn hr (by simp)]]
    rw [List.foldl_append]
    rw [show (("1,2,3,4,5").data).foldl asmStep (([] : Str), ([] : List Str))
        = (("1,2,3,4,5").data, []) from by
      have h := asm_clean (("1,2,3,4,5").data) [] [] hdata (by simp)
      simpa using h]
    rw [show (['\n'] : Str).foldl asmStep ((("1,2,3,4,5").data : Str), ([] : List Str))
        = ([], [trimS (("1,2,3,4,5").data)]) from by
      simp only [List.foldl_cons, List.foldl_nil]
      rw [asm_newline]
      simp]
    rw [trimS_no_space (by decide)]

/-! ### Helper lemmas: the device step functions -/

theorem lcdWake_on {d : Device} (now : Nat) (h : d.isLcdOn = true) :
    lcdWake d now = (d, []) := by
  simp [lcdWake, h]

theorem lcdWake_off {d : Device} (now : Nat) (h : d.isLcdOn = false) :
    lcdWake d now =
      ({ d with cache := (updateBarsAndTemps d.current resetCache).1, isLcdOn := true },
        staticLayoutOps ++ (updateBarsAndTemps d.current resetCache).2 ++
          drawStatus now d.lastRxMillis d.receivedOnce) := by
  simp [lcdWake, h]

theorem handleParsed_none {d : Device} {line : Str} (now : Nat) (fs : Bool)
    (h : parseLine line = none) : handleParsed d line now fs = (d, [], []) := by
  simp [handleParsed, h]

theorem handleParsed_some {d : Device} {line : Str} {m : Metrics} (now : Nat) (fs : Bool)
    (h : parseLine line = some m) :
    handleParsed d line now fs =
      ((lcdWake { d with
            current := m
            receivedOnce := true
            lastRxMillis := now
            lastLineShown := line
            cache := (updateBarsAndTemps m d.cache).1 } now).1,
        (updateBarsAndTemps m d.cache).2 ++ drawStatus now now true ++
          (lcdWake { d with
            current := m
            receivedOnce := true
            lastRxMillis := now
            lastLineShown := line
            cache := (updateBarsAndTemps m d.cache).1 } now).2,
        if fs then [bleSerialize m] else []) := by
  simp [handleParsed, h]

theorem processChar_newline (d : Device) (now : Nat) (fs : Bool) :
    processChar d '\n' now fs
      = handleParsed { d with lineBuf := [] } (trimS d.lineBuf) now fs := by
  simp [processChar, feedChar]

theorem processChar_other (d : Device) {c : Char} (now : Nat) (fs : Bool)
    (hn : c ≠ '\n') :
    processChar d c now fs = ({ d with lineBuf := (feedChar d.lineBuf c).1 }, [], []) := by
  simp only [processChar, feedChar, if_neg hn]
  split_ifs <;> rfl

theorem procStep_states (now : Nat) (fs : Bool) : ∀ (cs : Str) (d : Device)
    (ds : List DrawOp) (ns : List Str), (∀ c ∈ cs, c ≠ '\n' ∧ c ≠ '\r') →
    d.lineBuf.length + cs.length ≤ 128 →
    cs.foldl (procStep now fs) (d, ds, ns) = ({ d with lineBuf := d.lineBuf ++ cs }, ds, ns) := by
  intro cs
  induction cs with
  | nil => intro d ds ns _ _; simp
  | cons c r ih =>
    intro d ds ns hok hlen
    obtain ⟨hn, hr⟩ := hok c (by simp)
    have hlt : d.lineBuf.length < 128 := by
      simp only [List.length_cons] at hlen
      omega
    have hfeed : (feedChar d.lineBuf c).1 = d.lineBuf ++ [c] := by
      simp [feedChar, hn, hr, hlt]
    have hstep : procStep now fs (d, ds, ns) c = ({ d with lineBuf := d.lineBuf ++ [c] }, ds, ns) := by
      simp [procStep, processChar_other d now fs hn, hfeed]
    rw [List.foldl_cons, hstep]
    rw [ih { d with lineBuf := d.lineBuf ++ [c] } ds ns (fun x hx => hok x (by simp [hx]))
      (by
        simp only [List.length_append, List.length_cons, List.length_nil]
        simp only [List.length_cons] at hlen
        omega)]
    simp

theorem processChars_line (d : Device) (cs : Str) (now : Nat) (fs : Bool)
    (hbuf : d.lineBuf = []) (hok : ∀ c ∈ cs, c ≠ '\n' ∧ c ≠ '\r')
    (hlen : cs.length ≤ 128) :
    processChars d (cs ++ ['\n']) now fs
      = handleParsed { d with lineBuf := [] } (trimS cs) now fs := by
  unfold processChars
  rw [List.foldl_append]
  rw [procStep_states now fs cs d [] [] hok (by rw [hbuf]; simpa using hlen)]
  rw [hbuf]
  simp only [List.foldl_cons, List.foldl_nil, List.nil_append]
  rw [show procStep now fs ({ d with lineBuf := cs }, [], []) '\n'
      = (processChar { d with lineBuf := cs } '\n' now fs) from by
    simp [procStep]]
  rw [processChar_newline]

/-! ### Helper lemmas: the render engine -/

theorem newBarW_nonneg (v : ℚ) : 0 ≤ newBarW v := by
  unfold newBarW truncQ
  have harg : 0 ≤ (trackW : ℚ) * (clampPct v / 100) := by
    apply mul_nonneg
    · norm_num [trackW, barX, PADDING, LABEL_W, SCREEN_W]
    · apply div_nonneg _ (by norm_num)
      unfold clampPct
      split_ifs <;> linarith
  rw [if_pos harg]
  exact Int.floor_nonneg.mpr harg

theorem updateBarFill_fst (y : Int) (v : ℚ) (col : Nat) (w0 : Int) :
    (updateBarFill y v col w0).1 = newBarW v := by
  simp only [updateBarFill]
  split_ifs <;> simp_all

theorem updateBarFill_stable (y : Int) (v : ℚ) (col : Nat) :
    updateBarFill y v col (newBarW v) = (newBarW v, []) := by
  simp only [updateBarFill]
  rw [if_neg (not_lt.mpr (newBarW_nonneg v))]
  simp

theorem updateBarFill_ops {y : Int} {v : ℚ} {col : Nat} {w0 : Int} :
    ∀ op ∈ (updateBarFill y v col w0).2,
      (∃ a b w h cl, op = DrawOp.fillRect a b w h cl) ∨
        op = DrawOp.drawString (fmtPct v) (SCREEN_W - PADDING) (y + BAR_H / 2) := by
  intro op hop
  simp only [updateBarFill] at hop
  split_ifs at hop <;> simp at hop <;> rcases hop with rfl | rfl
  · exact Or.inl ⟨_, _, _, _, _, rfl⟩
  · exact Or.inr rfl
  · exact Or.inl ⟨_, _, _, _, _, rfl⟩
  · exact Or.inr rfl
  · exact Or.inl ⟨_, _, _, _, _, rfl⟩
  · exact Or.inr rfl
  · exact Or.inl ⟨_, _, _, _, _, rfl⟩
  · exact Or.inr rfl

theorem ubat_fst (m : Metrics) (c : RenderCache) :
    (updateBarsAndTemps m c).1 =
      { lastCpuW := newBarW m.cpu
        lastRamW := newBarW m.ram
        lastGpuW := if gpuRounded m.gpu ≠ c.ldGpu then
            newBarW (if m.gpu < 0 then 0 else m.gpu) else c.lastGpuW
        ldCpu := c.ldCpu
        ldRam := c.ldRam
        ldGpu := gpuRounded m.gpu
        ldTempC := tempTenths m.tempC
        ldGpuTempC := tempTenths m.gpuTempC } := by
  unfold updateBarsAndTemps
  by_cases h1 : tempTenths m.tempC = c.ldTempC <;>
    by_cases h2 : gpuRounded m.gpu = c.ldGpu <;>
      by_cases h3 : tempTenths m.gpuTempC = c.ldGpuTempC <;>
        simp [h1, h2, h3, updateBarFill_fst]

theorem ubat_snd (m : Metrics) (c : RenderCache) :
    (updateBarsAndTemps m c).2 =
      (updateBarFill Y_CPU m.cpu TFT_GREEN c.lastCpuW).2 ++
        (if tempTenths m.tempC ≠ c.ldTempC then drawTemp Y_TEMP m.tempC else []) ++
        (updateBarFill Y_RAM m.ram TFT_CYAN c.lastRamW).2 ++
        (if gpuRounded m.gpu ≠ c.ldGpu then
          (updateBarFill Y_GPU (if m.gpu < 0 then 0 else m.gpu) TFT_ORANGE c.lastGpuW).2
          else []) ++
        (if tempTenths m.gpuTempC ≠ c.ldGpuTempC then gpuTempDraw m.gpuTempC else []) := by
  unfold updateBarsAndTemps
  by_cases h1 : tempTenths m.tempC = c.ldTempC <;>
    by_cases h2 : gpuRounded m.gpu = c.ldGpu <;>
      by_cases h3 : tempTenths m.gpuTempC = c.ldGpuTempC <;>
        simp [h1, h2, h3]

theorem fmtPct_ne_na (q : ℚ) : fmtPct q ≠ naStr := by
  intro h
  have hl := congrArg List.getLast? h
  rw [fmtPct, List.getLast?_concat] at hl
  rw [show naStr.getLast? = some 'A' from by decide] at hl
  simp at hl

/-! ### Helper lemmas: concrete evaluations -/

theorem toFloat_char {d : Nat} {c : Char} (hd : d < 10) (hc : digitChar d = c) :
    toFloat [c] = (d : ℚ) := hc ▸ toFloat_single hd

theorem parse_12345 : parseLine (("1,2,3,4,5").data) = some ⟨1, 2, 3, 4, 5⟩ := by
  rw [show ("1,2,3,4,5").data
      = ['1'] ++ ',' :: (['2'] ++ ',' :: (['3'] ++ ',' :: (['4'] ++ ',' :: ['5'])))
    from by decide]
  rw [parseLine_split _ _ _ _ _ (by decide) (by decide) (by decide) (by decide)]
  rw [toFloat_char (show (1 : Nat) < 10 by norm_num) (by decide),
    toFloat_char (show (2 : Nat) < 10 by norm_num) (by decide),
    toFloat_char (show (3 : Nat) < 10 by norm_num) (by decide),
    toFloat_char (show (4 : Nat) < 10 by norm_num) (by decide),
    toFloat_char (show (5 : Nat) < 10 by norm_num) (by decide)]
  norm_num

theorem parse_x12345 : parseLine (("x1,2,3,4,5").data) = some ⟨0, 2, 3, 4, 5⟩ := by
  rw [show ("x1,2,3,4,5").data
      = ['x', '1'] ++ ',' :: (['2'] ++ ',' :: (['3'] ++ ',' :: (['4'] ++ ',' :: ['5'])))
    from by decide]
  rw [parseLine_split _ _ _ _ _ (by decide) (by decide) (by decide) (by decide)]
  rw [toFloat_nonNumeric (show startsNonNumeric ['x', '1'] = true from by decide)]
  rw [toFloat_char (show (2 : Nat) < 10 by norm_num) (by decide),
    toFloat_char (show (3 : Nat) < 10 by norm_num) (by decide),
    toFloat_char (show (4 : Nat) < 10 by norm_num) (by decide),
    toFloat_char (show (5 : Nat) < 10 by norm_num) (by decide)]
  norm_num

theorem newBarW_val_0 : newBarW 0 = 0 := by
  norm_num [newBarW, clampPct, truncQ, trackW, barX, PADDING, LABEL_W, SCREEN_W]

theorem newBarW_val_50 : newBarW 50 = 114 := by
  norm_num [newBarW, clampPct, truncQ, trackW, barX, PADDING, LABEL_W, SCREEN_W]

theorem newBarW_val_100 : newBarW 100 = 228 := by
  norm_num [newBarW, clampPct, truncQ, trackW, barX, PADDING, LABEL_W, SCREEN_W]

theorem gpuRounded_val_50 : gpuRounded 50 = 50 := by
  norm_num [gpuRounded, truncQ]

theorem gpuRounded_val_neg : gpuRounded (-1) = -1 := by
  norm_num [gpuRounded]

theorem tempTenths_val_40 : tempTenths 40 = 400 := by
  norm_num [tempTenths, truncQ]

theorem fmtPct_val_0 : fmtPct 0 = ('0') :: ['%'] := by
  have h0 : roundHalfEven 0 = 0 := by
    unfold roundHalfEven
    norm_num
  rw [fmtPct, h0]
  decide

/-! ### Claim theorems -/

/-- Claim C6: for a last-receipt time `t`, threshold `T` and a monotone
query time `q ≥ t`, the freshness test of `drawStatus` is fresh iff
`q - t < T`: fresh at every query time in `[t, t + T)` and stale at
`t + T` and beyond. -/
theorem freshness_boundary (t T q : Nat) (h : t ≤ q) :
    (isFreshT q t T = true ↔ q - t < T) ∧
      (q < t + T → isFreshT q t T = true) ∧
      (t + T ≤ q → isFreshT q t T = false) := by
  unfold isFreshT
  refine ⟨by simp, ?_, ?_⟩ <;> intro h2 <;> simp <;> omega

theorem freshness_boundary_witness :
    isFreshT 2599 100 2500 = true ∧ isFreshT 2600 100 2500 = false :=
  ⟨(freshness_boundary 100 2500 2599 (by norm_num)).2.1 (by norm_num),
    (freshness_boundary 100 2500 2600 (by norm_num)).2.2 (by norm_num)⟩

/-- Claim C4: a line with fewer than four commas (fewer than five fields)
is rejected by `parseLine`, and on a rejected line the `'\n'` arm leaves
the whole device state — in particular the current snapshot — unchanged
(only the line buffer is cleared), paints nothing and notifies nothing. -/
theorem malformed_line_rejected (d : Device) (now : Nat) (fs : Bool) (line : Str) :
    (line.count ',' < 4 → parseLine line = none) ∧
      (parseLine (trimS d.lineBuf) = none →
        processChar d '\n' now fs = ({ d with lineBuf := [] }, [], [])) := by
  constructor
  · exact fun h => parseLine_none_of_count h
  · intro h
    rw [processChar_newline, handleParsed_none now fs h]

theorem malformed_line_rejected_witness :
    parseLine (("1,2").data) = none ∧
      processChar { initialDevice with lineBuf := ("1,2").data } '\n' 9 true
        = (initialDevice, [], []) := by
  have h := malformed_line_rejected
    { initialDevice with lineBuf := ("1,2").data } 9 true (("1,2").data)
  have hp : parseLine (trimS (({ initialDevice with
      lineBuf := ("1,2").data } : Device).lineBuf)) = none := by
    rw [show trimS (({ initialDevice with
        lineBuf := ("1,2").data } : Device).lineBuf) = ("1,2").data from by decide]
    exact h.1 (by decide)
  refine ⟨h.1 (by decide), ?_⟩
  have h2 := h.2 hp
  simpa using h2

/-- Claim C8: the delta render is idempotent — a second call of
`updateBarsAndTemps` with the same snapshot, starting from the cache the
first call produced, leaves the cache unchanged and paints nothing. -/
theorem renderDelta_idempotent (m : Metrics) (c : RenderCache) :
    updateBarsAndTemps m (updateBarsAndTemps m c).1 = ((updateBarsAndTemps m c).1, []) := by
  rw [ubat_fst m c]
  rw [Prod.ext_iff]
  constructor
  · rw [ubat_fst]
    simp
  · rw [ubat_snd]
    simp [updateBarFill_stable]

/-- Claim C9: the rendered bar width is the floor of
`trackWidth × value / 100` after clamping the value to `[0, 100]`, and
over the value sequence 0, 50, 100, 50, 0 from a fresh cache the pixels
painted by the delta repaints equal the pixels of four independent full
redraws of the respective widths times the bar height. -/
theorem bar_delta_accounting :
    (∀ (y : Int) (v : ℚ) (col : Nat) (w0 : Int),
      (updateBarFill y v col w0).1 = ⌊(trackW : ℚ) * (max 0 (min 100 v)) / 100⌋) ∧
      paintedPx (runBarSeq [0, 50, 100, 50, 0] (-1)).2
        = (newBarW 50 + newBarW 100 + newBarW 50 + newBarW 0) * BAR_H := by
  constructor
  · intro y v col w0
    rw [updateBarFill_fst]
    have hc : clampPct v = max 0 (min 100 v) := by
      unfold clampPct
      split_ifs with h1 h2
      · rw [min_eq_right (by linarith), max_eq_left (by linarith)]
      · rw [min_eq_left (by linarith)]
        norm_num
      · rw [min_eq_right (by linarith), max_eq_right (by linarith)]
    unfold newBarW truncQ
    rw [hc]
    have hpos : (0 : ℚ) ≤ (trackW : ℚ) * (max 0 (min 100 v) / 100) := by
      apply mul_nonneg
      · norm_num [trackW, barX, PADDING, LABEL_W, SCREEN_W]
      · exact div_nonneg (le_max_left 0 _) (by norm_num)
    rw [if_pos hpos, mul_div_assoc]
  · have s1 : updateBarFill Y_CPU 0 TFT_GREEN (-1) = (0, []) := by
      simp only [updateBarFill, newBarW_val_0]
      norm_num
    have s2 : updateBarFill Y_CPU 50 TFT_GREEN 0 =
        (114, [DrawOp.fillRect barX Y_CPU 114 BAR_H TFT_GREEN,
          DrawOp.drawString (fmtPct 50) (SCREEN_W - PADDING) (Y_CPU + BAR_H / 2)]) := by
      simp only [updateBarFill, newBarW_val_50]
      norm_num
    have s3 : updateBarFill Y_CPU 100 TFT_GREEN 114 =
        (228, [DrawOp.fillRect (barX + 114) Y_CPU 114 BAR_H TFT_GREEN,
          DrawOp.drawString (fmtPct 100) (SCREEN_W - PADDING) (Y_CPU + BAR_H / 2)]) := by
      simp only [updateBarFill, newBarW_val_100]
      norm_num
    have s4 : updateBarFill Y_CPU 50 TFT_GREEN 228 =
        (114, [DrawOp.fillRect (barX + 114) Y_CPU 114 BAR_H TFT_DARKGREY,
          DrawOp.drawString (fmtPct 50) (SCREEN_W - PADDING) (Y_CPU + BAR_H / 2)]) := by
      simp only [updateBarFill, newBarW_val_50]
      norm_num
    have s5 : updateBarFill Y_CPU 0 TFT_GREEN 114 =
        (0, [DrawOp.fillRect barX Y_CPU 114 BAR_H TFT_DARKGREY,
          DrawOp.drawString (fmtPct 0) (SCREEN_W - PADDING) (Y_CPU + BAR_H / 2)]) := by
      simp only [updateBarFill, newBarW_val_0]
      norm_num
    simp only [runBarSeq, List.foldl_cons, List.foldl_nil, s1, s2, s3, s4, s5]
    simp [paintedPx, newBarW_val_0, newBarW_val_50, newBarW_val_100, BAR_H]

/-- Claim C10: the temperature render paths treat every negative value —
not only exactly `-1` — as the unavailable sentinel: `drawTemp` prints
`N/A` and the change detector collapses to `-1` for any negative value,
and in the composed delta render a negative CPU or GPU temperature
produces the `N/A` text whenever the cache does not already hold the
sentinel. -/
theorem temp_sentinel_negative (m : Metrics) (c : RenderCache) (y : Int) (q : ℚ) :
    (q < 0 → drawTemp y q = [DrawOp.drawString naStr (SCREEN_W - PADDING) y] ∧
      tempTenths q = -1) ∧
    (m.tempC < 0 → c.ldTempC ≠ -1 →
      DrawOp.drawString naStr (SCREEN_W - PADDING) Y_TEMP ∈ (updateBarsAndTemps m c).2) ∧
    (m.gpuTempC < 0 → c.ldGpuTempC ≠ -1 →
      DrawOp.drawString naStr (SCREEN_W - PADDING) Y_GPUTEMP ∈ (updateBarsAndTemps m c).2) := by
  refine ⟨fun hq => ⟨by simp [drawTemp, hq], by simp [tempTenths, hq]⟩, ?_, ?_⟩
  · intro hq hcache
    rw [ubat_snd]
    have hgate : tempTenths m.tempC ≠ c.ldTempC := by
      rw [show tempTenths m.tempC = -1 from by simp [tempTenths, hq]]
      exact fun he => hcache he.symm
    rw [if_pos hgate, show drawTemp Y_TEMP m.tempC
        = [DrawOp.drawString naStr (SCREEN_W - PADDING) Y_TEMP] from by simp [drawTemp, hq]]
    simp
  · intro hq hcache
    rw [ubat_snd]
    have hgate : tempTenths m.gpuTempC ≠ c.ldGpuTempC := by
      rw [show tempTenths m.gpuTempC = -1 from by simp [tempTenths, hq]]
      exact fun he => hcache he.symm
    rw [if_pos hgate, show gpuTempDraw m.gpuTempC
        = [DrawOp.drawString naStr (SCREEN_W - PADDING) Y_GPUTEMP] from by
      simp [gpuTempDraw, hq]]
    simp

theorem temp_sentinel_negative_witness :
    drawTemp Y_TEMP (-(1 / 2)) = [DrawOp.drawString naStr (SCREEN_W - PADDING) Y_TEMP] ∧
      DrawOp.drawString naStr (SCREEN_W - PADDING) Y_TEMP
        ∈ (updateBarsAndTemps ⟨0, -(1 / 2), 0, 0, 0⟩ resetCache).2 := by
  have h := temp_sentinel_negative ⟨0, -(1 / 2), 0, 0, 0⟩ resetCache Y_TEMP (-(1 / 2))
  exact ⟨(h.1 (by norm_num)).1, h.2.1 (by norm_num) (by norm_num [resetCache])⟩

/-- Claim C7: a line with at least four commas parses successfully into
the best-effort values of its five pieces; a field spelled as a
well-formed decimal numeral round-trips to exactly its value (so no
clamping is applied at parse time), and a field that does not begin with
anything numeric parses as `0`. -/
theorem parse_best_effort :
    (∀ line : Str, 4 ≤ line.count ',' → (parseLine line).isSome) ∧
      (∀ s1 s2 s3 s4 s5 : Str, ',' ∉ s1 → ',' ∉ s2 → ',' ∉ s3 → ',' ∉ s4 →
        parseLine (s1 ++ ',' :: (s2 ++ ',' :: (s3 ++ ',' :: (s4 ++ ',' :: s5)))) =
          some ⟨toFloat s1, toFloat s2, toFloat s3, toFloat s4, toFloat s5⟩) ∧
      (∀ (neg : Bool) (ip fp : List Nat), ip ≠ [] → (∀ d ∈ ip, d < 10) →
        (∀ d ∈ fp, d < 10) →
        toFloat (renderNumeral neg ip fp) = numeralVal neg ip fp) ∧
      (∀ s : Str, startsNonNumeric s = true → toFloat s = 0) :=
  ⟨fun l h => (parseLine_isSome_iff l).mpr h, parseLine_split, toFloat_renderNumeral,
    fun _ h => toFloat_nonNumeric h⟩

theorem parse_best_effort_witness :
    (parseLine (("250,2,3,4,5").data)).isSome ∧
      toFloat (renderNumeral false [2, 5, 0] [1]) = numeralVal false [2, 5, 0] [1] ∧
      toFloat (("abc").data) = 0 :=
  ⟨parse_best_effort.1 _ (by decide),
    parse_best_effort.2.2.1 false [2, 5, 0] [1] (by decide) (by decide) (by decide),
    parse_best_effort.2.2.2 _ (by decide)⟩

/-- Claim C5: the display power state machine has exactly two
transitions.  The sleep check turns the display off exactly when it is on
and more than `LCD_SLEEP_TIMEOUT_MS` (60 000 ms) has elapsed since the
last valid snapshot, and never wakes it; byte input never turns the
display off, and from the off state the display turns on exactly when a
newline arrives whose assembled line parses — at which point the cache is
the one produced by a full render from the reset (all-sentinel) cache and
the painted operations end with the full repaint: static relayout, full
render from the reset cache, status line. -/
theorem power_state_transitions (d : Device) (now : Nat) (c : Char) (fs : Bool) (m : Metrics) :
    ((sleepCheck d now).1.isLcdOn = true ↔
      (d.isLcdOn = true ∧ now - d.lastRxMillis ≤ LCD_SLEEP_TIMEOUT_MS)) ∧
      (d.isLcdOn = true → (processChar d c now fs).1.isLcdOn = true) ∧
      (d.isLcdOn = false →
        ((processChar d c now fs).1.isLcdOn = true ↔
          (c = '\n' ∧ (parseLine (trimS d.lineBuf)).isSome))) ∧
      (d.isLcdOn = false → c = '\n' → parseLine (trimS d.lineBuf) = some m →
        (processChar d c now fs).1.cache = (updateBarsAndTemps m resetCache).1 ∧
          (processChar d c now fs).2.1 =
            (updateBarsAndTemps m d.cache).2 ++ drawStatus now now true ++
              (staticLayoutOps ++ (updateBarsAndTemps m resetCache).2 ++
                drawStatus now now true)) := by
  refine ⟨?_, ?_, ?_, ?_⟩
  · by_cases hcond : d.isLcdOn ∧ now - d.lastRxMillis > LCD_SLEEP_TIMEOUT_MS
    · rw [show sleepCheck d now = lcdSleep d from by simp [sleepCheck, hcond]]
      rw [show lcdSleep d = ({ d with isLcdOn := false }, [DrawOp.fillScreen TFT_BLACK])
        from by simp [lcdSleep, hcond.1]]
      simp
      omega
    · rw [show sleepCheck d now = (d, []) from by simp [sleepCheck, hcond]]
      constructor
      · intro hon
        refine ⟨hon, ?_⟩
        by_contra hgt
        exact hcond ⟨hon, by omega⟩
      · exact fun h => h.1
  · intro hon
    by_cases hc : c = '\n'
    · subst hc
      rw [processChar_newline]
      cases hp : parseLine (trimS d.lineBuf) with
      | none => rw [handleParsed_none now fs hp]; exact hon
      | some m2 =>
        rw [handleParsed_some now fs hp]
        rw [lcdWake_on now (by simpa using hon)]
        simpa using hon
    · rw [processChar_other d now fs hc]
      exact hon
  · intro hoff
    by_cases hc : c = '\n'
    · subst hc
      cases hp : parseLine (trimS d.lineBuf) with
      | none =>
        rw [processChar_newline, handleParsed_none now fs hp]
        simp [hoff, hp]
      | some m2 =>
        rw [processChar_newline, handleParsed_some now fs hp]
        rw [lcdWake_off now (by simpa using hoff)]
        simp [hp]
    · rw [processChar_other d now fs hc]
      simp [hoff, hc]
  · intro hoff hc hp
    subst hc
    rw [processChar_newline, handleParsed_some now fs hp]
    rw [lcdWake_off now (by simpa using hoff)]
    simp

theorem power_state_transitions_witness :
    (sleepCheck initialDevice 60001).1.isLcdOn = false ∧
      (processChar { initialDevice with
        isLcdOn := false
        lineBuf := ("1,2,3,4,5").data } '\n' 5 true).1.isLcdOn = true := by
  constructor
  · have h := (power_state_transitions initialDevice 60001 ' ' true defaultMetrics).1
    cases hb : (sleepCheck initialDevice 60001).1.isLcdOn with
    | false => rfl
    | true =>
      have h2 := (h.mp hb).2
      rw [show initialDevice.lastRxMillis = 0 from rfl] at h2
      exact absurd h2 (by norm_num [LCD_SLEEP_TIMEOUT_MS])
  · have h := (power_state_transitions { initialDevice with
      isLcdOn := false
      lineBuf := ("1,2,3,4,5").data } 5 '\n' true defaultMetrics).2.2.1 rfl
    refine h.mpr ⟨rfl, ?_⟩
    rw [show trimS (({ initialDevice with
        isLcdOn := false
        lineBuf := ("1,2,3,4,5").data } : Device).lineBuf) = ("1,2,3,4,5").data from by decide]
    rw [parse_12345]
    rfl

/-- Claim C3 (amended): only snapshots parsed from the serial transport
are re-serialized to the key:value form and pushed to the BLE notify
characteristic; a snapshot parsed from a BLE write updates the display
but is never echoed, and nothing else ever notifies. -/
theorem ble_echo_serial_only (d : Device) (now : Nat) (fs : Bool) (m : Metrics) (c : Char) :
    (parseLine (trimS d.lineBuf) = some m →
      (processChar d '\n' now fs).2.2 = if fs then [bleSerialize m] else []) ∧
      (parseLine (trimS d.lineBuf) = none → (processChar d '\n' now fs).2.2 = []) ∧
      (c ≠ '\n' → (processChar d c now fs).2.2 = []) := by
  refine ⟨?_, ?_, ?_⟩
  · intro h
    rw [processChar_newline, handleParsed_some now fs h]
  · intro h
    rw [processChar_newline, handleParsed_none now fs h]
  · intro h
    rw [processChar_other d now fs h]

theorem ble_echo_serial_only_witness :
    (processChar { initialDevice with lineBuf := ("1,2,3,4,5").data } '\n' 7 true).2.2
      = [bleSerialize ⟨1, 2, 3, 4, 5⟩] := by
  have hp : parseLine (trimS (({ initialDevice with
      lineBuf := ("1,2,3,4,5").data } : Device).lineBuf)) = some ⟨1, 2, 3, 4, 5⟩ := by
    rw [show trimS (({ initialDevice with
        lineBuf := ("1,2,3,4,5").data } : Device).lineBuf) = ("1,2,3,4,5").data from by decide]
    exact parse_12345
  have h := (ble_echo_serial_only { initialDevice with
    lineBuf := ("1,2,3,4,5").data } 7 true ⟨1, 2, 3, 4, 5⟩ ' ').1 hp
  simpa using h

/-- Counterexample to claim C3 as stated: a line arriving on the BLE
write transport parses successfully and overwrites the snapshot, yet
nothing is pushed to the BLE notify channel. -/
theorem ble_ingest_no_echo :
    (processBlePacket initialDevice (("1,2,3,4,5\n").data) 0).1.current = ⟨1, 2, 3, 4, 5⟩ ∧
      (processBlePacket initialDevice (("1,2,3,4,5\n").data) 0).2.2 = [] := by
  have hb : processBlePacket initialDevice (("1,2,3,4,5\n").data) 0
      = processChars initialDevice (("1,2,3,4,5\n").data) 0 false := by
    rw [processBlePacket, if_pos (show (("1,2,3,4,5\n").data).getLast? = some '\n' from by decide)]
  rw [hb, show ("1,2,3,4,5\n").data = ("1,2,3,4,5").data ++ ['\n'] from by decide]
  rw [processChars_line initialDevice _ 0 false rfl (by decide) (by decide)]
  rw [show trimS (("1,2,3,4,5").data) = ("1,2,3,4,5").data from by decide]
  rw [handleParsed_some 0 false parse_12345]
  rw [lcdWake_on 0 rfl]
  exact ⟨rfl, rfl⟩

/-- Claim C2 (amended): exceeding the 128-byte capacity resets the buffer
to empty — the accumulated 128 bytes and the overflowing byte are lost —
but bytes arriving after the reset begin a new accumulation: feeding 130
non-terminator bytes and then a valid short terminated line yields
exactly one emitted line consisting of the 130th byte followed by the
short line, while feeding 129 such bytes yields exactly the short line,
which parses into the correct snapshot. -/
theorem overflow_line_amended (b : Char) (hn : b ≠ '\n') (hr : b ≠ '\r')
    (hs : isSpaceC b = false) :
    (runAssembler (List.replicate 130 b ++ ("1,2,3,4,5\n").data)).2
        = [b :: ("1,2,3,4,5").data] ∧
      (runAssembler (List.replicate 129 b ++ ("1,2,3,4,5\n").data)).2
        = [("1,2,3,4,5").data] ∧
      parseLine (("1,2,3,4,5").data) = some ⟨1, 2, 3, 4, 5⟩ :=
  ⟨(assembler_overflow hn hr hs).1, (assembler_overflow hn hr hs).2, parse_12345⟩

theorem overflow_line_amended_witness :
    (runAssembler (List.replicate 130 'z' ++ ("1,2,3,4,5\n").data)).2
        = ['z' :: ("1,2,3,4,5").data] ∧
      (runAssembler (List.replicate 129 'z' ++ ("1,2,3,4,5\n").data)).2
        = [("1,2,3,4,5").data] :=
  ⟨(overflow_line_amended 'z' (by decide) (by decide) (by decide)).1,
    (overflow_line_amended 'z' (by decide) (by decide) (by decide)).2.1⟩

/-- Counterexample to claim C2 as stated: after 130 junk bytes `x` and a
valid short line, exactly one line is emitted but its content is not the
short line — the 130th byte survives the overflow reset and prefixes it —
and the parsed snapshot is wrong: `cpu` comes out 0 although the short
line said 1. -/
theorem overflow_line_counterexample :
    (runAssembler (List.replicate 130 'x' ++ ("1,2,3,4,5\n").data)).2
        = [("x1,2,3,4,5").data] ∧
      ("x1,2,3,4,5").data ≠ ("1,2,3,4,5").data ∧
      parseLine (("x1,2,3,4,5").data) = some ⟨0, 2, 3, 4, 5⟩ ∧
      (0 : ℚ) ≠ 1 := by
  refine ⟨?_, by decide, parse_x12345, by norm_num⟩
  have h := (@assembler_overflow 'x' (by decide) (by decide) (by decide)).1
  rw [h, show ('x' :: ("1,2,3,4,5").data) = ("x1,2,3,4,5").data from by decide]

/-- Any bar-width change paints the numeric overlay text. -/
theorem updateBarFill_mem_text {y : Int} {v : ℚ} {col : Nat} {w0 : Int}
    (hne : newBarW v ≠ (if w0 < 0 then 0 else w0)) :
    DrawOp.drawString (fmtPct v) (SCREEN_W - PADDING) (y + BAR_H / 2)
      ∈ (updateBarFill y v col w0).2 := by
  simp only [updateBarFill]
  rw [if_neg hne]
  simp

/-- Every operation of `drawTemp` is a string drawn at its own row. -/
theorem drawTemp_ops {y : Int} {q : ℚ} :
    ∀ op ∈ drawTemp y q, ∃ s, op = DrawOp.drawString s (SCREEN_W - PADDING) y := by
  intro op hop
  unfold drawTemp at hop
  split_ifs at hop <;> simp at hop <;> exact ⟨_, hop⟩

/-- Every operation of the GPU-temperature block is a string drawn at the
`Y_GPUTEMP` row. -/
theorem gpuTempDraw_ops {q : ℚ} :
    ∀ op ∈ gpuTempDraw q, ∃ s, op = DrawOp.drawString s (SCREEN_W - PADDING) Y_GPUTEMP := by
  intro op hop
  unfold gpuTempDraw at hop
  split_ifs at hop <;> simp at hop <;> exact ⟨_, hop⟩

/-- Claim C1 (amended): a temperature field holding the sentinel `-1`
renders as the `N/A` text, but the GPU load field has no `N/A` path at
all: the render never draws `N/A` on the GPU bar row; a snapshot with
`gpu = -1` is rendered as a zero-width bar, and whenever the cached GPU
bar width was positive the shrink repaints the numeric overlay `0%` — a
numeric string — for the GPU field. -/
theorem sentinel_na_amended (y : Int) (m : Metrics) (c : RenderCache) :
    drawTemp y (-1) = [DrawOp.drawString naStr (SCREEN_W - PADDING) y] ∧
      gpuTempDraw (-1) = [DrawOp.drawString naStr (SCREEN_W - PADDING) Y_GPUTEMP] ∧
      DrawOp.drawString naStr (SCREEN_W - PADDING) (Y_GPU + BAR_H / 2)
        ∉ (updateBarsAndTemps m c).2 ∧
      (m.gpu = -1 → c.ldGpu ≠ -1 →
        (updateBarsAndTemps m c).1.lastGpuW = 0 ∧
          (0 < (if c.lastGpuW < 0 then 0 else c.lastGpuW) →
            DrawOp.drawString (fmtPct 0) (SCREEN_W - PADDING) (Y_GPU + BAR_H / 2)
              ∈ (updateBarsAndTemps m c).2)) := by
  refine ⟨by norm_num [drawTemp], by norm_num [gpuTempDraw], ?_, ?_⟩
  · intro hmem
    rw [ubat_snd] at hmem
    simp only [List.mem_append] at hmem
    rcases hmem with ((((h | h) | h) | h) | h)
    · rcases updateBarFill_ops _ h with ⟨a, b2, w, hh, cl, he⟩ | he
      · exact DrawOp.noConfusion he
      · injection he with h1 h2 h3
        exact fmtPct_ne_na _ h1.symm
    · split_ifs at h with hg
      · obtain ⟨s, hs⟩ := drawTemp_ops _ h
        injection hs with h1 h2 h3
        exact absurd h3 (by decide)
      · exact (List.not_mem_nil _) h
    · rcases updateBarFill_ops _ h with ⟨a, b2, w, hh, cl, he⟩ | he
      · exact DrawOp.noConfusion he
      · injection he with h1 h2 h3
        exact fmtPct_ne_na _ h1.symm
    · split_ifs at h
      · rcases updateBarFill_ops _ h with ⟨a, b2, w, hh, cl, he⟩ | he
        · exact DrawOp.noConfusion he
        · injection he with h1 h2 h3
          exact fmtPct_ne_na _ h1.symm
      · rcases updateBarFill_ops _ h with ⟨a, b2, w, hh, cl, he⟩ | he
        · exact DrawOp.noConfusion he
        · injection he with h1 h2 h3
          exact fmtPct_ne_na _ h1.symm
      · exact (List.not_mem_nil _) h
    · split_ifs at h with hg
      · obtain ⟨s, hs⟩ := gpuTempDraw_ops _ h
        injection hs with h1 h2 h3
        exact absurd h3 (by decide)
      · exact (List.not_mem_nil _) h
  · intro hgpu hcache
    have hneg : m.gpu < 0 := by rw [hgpu]; norm_num
    have hgr : gpuRounded m.gpu = -1 := by simp [gpuRounded, hneg]
    have hgate : gpuRounded m.gpu ≠ c.ldGpu := by
      rw [hgr]
      exact fun he => hcache he.symm
    have harg : (if m.gpu < 0 then (0 : ℚ) else m.gpu) = 0 := if_pos hneg
    constructor
    · rw [ubat_fst]
      simp only [if_pos hgate, harg]
      exact newBarW_val_0
    · intro hw
      rw [ubat_snd, if_pos hgate, harg]
      have hmem := @updateBarFill_mem_text Y_GPU 0 TFT_ORANGE c.lastGpuW
        (by rw [newBarW_val_0]; omega)
      simp only [List.mem_append]
      exact Or.inl (Or.inr hmem)

theorem sentinel_na_amended_witness :
    (updateBarsAndTemps ⟨50, 40, 50, -1, 40⟩
        ⟨114, 114, 114, -1000, -1000, 50, 400, 400⟩).1.lastGpuW = 0 ∧
      DrawOp.drawString (fmtPct 0) (SCREEN_W - PADDING) (Y_GPU + BAR_H / 2)
        ∈ (updateBarsAndTemps ⟨50, 40, 50, -1, 40⟩
            ⟨114, 114, 114, -1000, -1000, 50, 400, 400⟩).2 := by
  have h := (sentinel_na_amended 0 ⟨50, 40, 50, -1, 40⟩
    ⟨114, 114, 114, -1000, -1000, 50, 400, 400⟩).2.2.2 rfl (by decide)
  exact ⟨h.1, h.2 (by norm_num)⟩

/-- Counterexample to claim C1 as stated: with the GPU bar previously
rendered at 50 %, a snapshot carrying the sentinel `gpuLoad = -1` paints
exactly a background shrink rectangle and the numeric percentage text
`0%` on the GPU row — a numeric string is drawn for the GPU field and no
`N/A` text appears anywhere in this render. -/
theorem sentinel_na_counterexample :
    (updateBarsAndTemps ⟨50, 40, 50, -1, 40⟩
        (updateBarsAndTemps ⟨50, 40, 50, 50, 40⟩ resetCache).1).2
      = [DrawOp.fillRect barX Y_GPU 114 BAR_H TFT_DARKGREY,
        DrawOp.drawString (('0') :: ['%']) (SCREEN_W - PADDING) (Y_GPU + BAR_H / 2)] := by
  have hc1 : (updateBarsAndTemps ⟨50, 40, 50, 50, 40⟩ resetCache).1
      = ⟨114, 114, 114, -1000, -1000, 50, 400, 400⟩ := by
    rw [ubat_fst]
    norm_num [resetCache, gpuRounded_val_50, tempTenths_val_40, newBarW_val_50]
  have hbarCpu : updateBarFill Y_CPU 50 TFT_GREEN 114 = (114, []) := by
    rw [show (114 : Int) = newBarW 50 from newBarW_val_50.symm]
    exact updateBarFill_stable Y_CPU 50 TFT_GREEN
  have hbarRam : updateBarFill Y_RAM 50 TFT_CYAN 114 = (114, []) := by
    rw [show (114 : Int) = newBarW 50 from newBarW_val_50.symm]
    exact updateBarFill_stable Y_RAM 50 TFT_CYAN
  have hbarGpu : updateBarFill Y_GPU 0 TFT_ORANGE 114 =
      (0, [DrawOp.fillRect barX Y_GPU 114 BAR_H TFT_DARKGREY,
        DrawOp.drawString (fmtPct 0) (SCREEN_W - PADDING) (Y_GPU + BAR_H / 2)]) := by
    simp only [updateBarFill, newBarW_val_0]
    norm_num
  rw [hc1, ubat_snd]
  norm_num [tempTenths_val_40, gpuRounded_val_neg, hbarCpu, hbarRam, hbarGpu, fmtPct_val_0]

end WioMon

